import Mathlib

/-!
# IMS_POS: stock ledger and reports

A shallow embedding of `backend/controllers/transactionController.js` and
`backend/controllers/reportController.js`.

Modelling conventions.

* The two Mongo collections are lists; a document `_id` is a natural number.
  `findById` returns the first document with the given id, `save` and
  `findByIdAndDelete` touch the first document with the given id.
* A quantity is a JavaScript number with an integer value.  The additions and
  subtractions of the handlers are `jsAdd` and `jsSub`: the exact result
  rounded to the nearest double, ties to the even mantissa (`roundDouble`), so
  they are exact on safe integers (absolute value below 2^53) and round beyond.
  Magnitudes stay below 2^1024; the overflow to `Infinity` is not modelled.
  Comparisons and the halving `* 0.5` are exact.  The sums and products that
  the database computes in its pipelines (`$sum`, `$multiply`) are exact, and
  prices and money amounts are rationals.
* Instants are integers, milliseconds since the epoch (UTC).  The time zone of
  the server process is an explicit offset `tz` in milliseconds, constant over
  time (no daylight saving switch).
* A handler returns the store after the call together with the response it
  sends.  `Transaction.create` assigns a fresh `_id` and appends; the schema
  checks of `models/Transaction` are not part of these sources and are not
  modelled, so a `create` always goes through.
-/

namespace IMSPOS

/-! ## Data model -/

/-- The `type` field of a transaction: 'in' or 'out'. -/
inductive TxType where
  | tin
  | tout
  deriving DecidableEq, Repr

/-- The fields of a product document that the controllers read or write. -/
structure Product where
  id : Nat
  name : String
  sku : String
  category : String
  price : Option ℚ
  quantity : Int
  initialStock : Option Int
  deriving DecidableEq

/-- A transaction document. -/
structure Transaction where
  id : Nat
  productId : Nat
  supplierId : Option Nat
  type : TxType
  quantity : Int
  date : Int
  userId : Nat
  notes : Option String
  deriving DecidableEq

/-- The persisted state: the product collection and the transaction ledger. -/
structure Store where
  products : List Product
  transactions : List Transaction
  deriving DecidableEq

/-- The JSON answer of a handler: HTTP status, `success`, `message` and the
transactions carried in `data`. -/
structure Response where
  status : Nat
  success : Bool
  message : String
  data : List Transaction
  deriving DecidableEq

/-- One element of the `items` array of a sale request. -/
structure SaleItem where
  productId : Nat
  quantity : Int
  deriving DecidableEq

/-! ## Collection primitives -/

/-- The JavaScript `x || 0` on a number. -/
def orZero (x : Int) : Int := if x = 0 then 0 else x

/-- The number of low bits a natural number loses when it is written with a
mantissa of 53 bits: 0 below 2^53, and one more for every further doubling. -/
def excessBits : Nat → Nat → Nat
  | 0, _ => 0
  | fuel + 1, n => if n < 9007199254740992 then 0 else excessBits fuel (n / 2) + 1

/-- The double nearest to an integer, ties to the even mantissa. -/
def roundDouble (x : Int) : Int :=
  let n := x.natAbs
  let q := 2 ^ excessBits 1024 n
  let lo := n / q
  let r := n % q
  let m :=
    if 2 * r < q then lo
    else if q < 2 * r then lo + 1
    else if lo % 2 = 0 then lo
    else lo + 1
  Int.sign x * ((m * q : Nat) : Int)

/-- The JavaScript `a + b` on numbers with integer values. -/
def jsAdd (a b : Int) : Int := roundDouble (a + b)

/-- The JavaScript `a - b` on numbers with integer values. -/
def jsSub (a b : Int) : Int := roundDouble (a - b)

/-- A safe integer: absolute value below 2^53, as `Number.isSafeInteger`. -/
def safeInt (x : Int) : Prop := -9007199254740992 < x ∧ x < 9007199254740992

instance (x : Int) : Decidable (safeInt x) := by
  unfold safeInt; exact inferInstance

/-- `Product.findById(id)`. -/
def findById (ps : List Product) (pid : Nat) : Option Product :=
  ps.find? (fun p => decide (p.id = pid))

/-- `Transaction.findById(id)`. -/
def findTransaction (ts : List Transaction) (tid : Nat) : Option Transaction :=
  ts.find? (fun t => decide (t.id = tid))

/-- `product.save()` after an assignment to `product.quantity`: the stored
document with the id of `doc` gets the quantity held by `doc`. -/
def save : List Product → Product → List Product
  | [], _ => []
  | p :: ps, doc =>
    if p.id = doc.id then { p with quantity := doc.quantity } :: ps
    else p :: save ps doc

/-- `Transaction.findByIdAndDelete(id)`. -/
def findByIdAndDelete : List Transaction → Nat → List Transaction
  | [], _ => []
  | t :: ts, tid => if t.id = tid then ts else t :: findByIdAndDelete ts tid

/-- The `_id` given to a new transaction document: one not in the ledger. -/
def freshId (ts : List Transaction) : Nat :=
  (ts.map (fun t => t.id)).foldr max 0 + 1

/-! ## Transaction processor -/

/-- The handler `createTransaction`. -/
def createTransaction (s : Store) (now : Int) (userId : Nat) (productId : Nat)
    (supplierId : Option Nat) (type : TxType) (quantity : Int)
    (notes : Option String) : Store × Response :=
  match findById s.products productId with
  | none => (s, ⟨404, false, "Product not found", []⟩)
  | some product =>
    if type = TxType.tout ∧ product.quantity < quantity then
      (s, ⟨400, false, "Insufficient stock", []⟩)
    else
      let product1 : Product :=
        match type with
        | TxType.tin => { product with quantity := jsAdd product.quantity quantity }
        | TxType.tout => { product with quantity := jsSub product.quantity quantity }
      let transaction : Transaction :=
        { id := freshId s.transactions, productId := productId,
          supplierId := supplierId, type := type, quantity := quantity,
          date := now, userId := userId, notes := notes }
      ({ products := save s.products product1,
         transactions := s.transactions ++ [transaction] },
       ⟨201, true, "Transaction created successfully", [transaction]⟩)

/-- The handler `deleteTransaction`. -/
def deleteTransaction (s : Store) (tid : Nat) : Store × Response :=
  match findTransaction s.transactions tid with
  | none => (s, ⟨404, false, "Transaction not found", []⟩)
  | some transaction =>
    let products1 : List Product :=
      match findById s.products transaction.productId with
      | some product =>
        match transaction.type with
        | TxType.tin =>
          save s.products
            { product with quantity := jsSub product.quantity transaction.quantity }
        | TxType.tout =>
          save s.products
            { product with quantity := jsAdd product.quantity transaction.quantity }
      | none => s.products
    ({ products := products1,
       transactions := findByIdAndDelete s.transactions tid },
     ⟨200, true, "Transaction deleted successfully", []⟩)

/-- First loop of `createSale`: every item is looked up and checked against
the stored quantity; the documents read are kept with the quantity to sell. -/
def validateItems (ps : List Product) :
    List SaleItem → Except Response (List (Product × Int))
  | [] => Except.ok []
  | it :: rest =>
    match findById ps it.productId with
    | none =>
      Except.error ⟨404, false, "Product not found: " ++ toString it.productId, []⟩
    | some product =>
      if orZero product.quantity < orZero it.quantity then
        Except.error ⟨400, false, "Insufficient stock for product " ++ product.name, []⟩
      else
        match validateItems ps rest with
        | Except.error r => Except.error r
        | Except.ok l => Except.ok ((product, it.quantity) :: l)

/-- Second loop of `createSale`: each document read by the first loop has its
quantity lowered and is saved. -/
def deductStock (ps : List Product) : List (Product × Int) → List Product
  | [] => ps
  | (product, qty) :: rest =>
    deductStock (save ps { product with quantity := jsSub product.quantity qty }) rest

/-- The document handed to `Transaction.create` for one item of a sale. -/
def saleRecord (now : Int) (userId : Nat) (notes : String) (ts : List Transaction)
    (it : SaleItem) : Transaction :=
  { id := freshId ts, productId := it.productId, supplierId := none,
    type := TxType.tout, quantity := it.quantity, date := now,
    userId := userId, notes := some notes }

/-- Third loop of `createSale`: one 'out' transaction per item.  Returns the
ledger and the list `created`. -/
def createRecords (now : Int) (userId : Nat) (notes : String) :
    List Transaction → List SaleItem → List Transaction × List Transaction
  | ts, [] => (ts, [])
  | ts, it :: rest =>
    let tr := saleRecord now userId notes ts it
    let r := createRecords now userId notes (ts ++ [tr]) rest
    (r.1, tr :: r.2)

/-- The note written on the transactions of a sale. -/
def saleNotes (paymentMethod : Option String) : String :=
  match paymentMethod with
  | none => "Sale - unknown"
  | some m => if m = "" then "Sale - unknown" else "Sale - " ++ m

/-- The handler `createSale`.  The answer carries the created transactions in
the order of their creation. -/
def createSale (s : Store) (now : Int) (userId : Nat) (items : List SaleItem)
    (paymentMethod : Option String) : Store × Response :=
  if items.length = 0 then
    (s, ⟨400, false, "No items provided for sale", []⟩)
  else
    match validateItems s.products items with
    | Except.error r => (s, r)
    | Except.ok productsToUpdate =>
      let r := createRecords now userId (saleNotes paymentMethod) s.transactions items
      ({ products := deductStock s.products productsToUpdate, transactions := r.1 },
       ⟨201, true, "Sale processed successfully", r.2⟩)

/-! ## Ledger sums -/

/-- Sum of the quantities of the transactions of product `pid` with type `ty`. -/
def sumQty (ts : List Transaction) (pid : Nat) (ty : TxType) : Int :=
  ((ts.filter (fun t => decide (t.productId = pid ∧ t.type = ty))).map
    (fun t => t.quantity)).sum

/-- The conservation equation for product `pid`: when the product exists and
its `initialStock` is known, `quantity = initialStock + Σin − Σout`. -/
def Conserved (s : Store) (pid : Nat) : Prop :=
  ∀ p i, findById s.products pid = some p → p.initialStock = some i →
    p.quantity = i + sumQty s.transactions pid TxType.tin
      - sumQty s.transactions pid TxType.tout

instance (s : Store) (pid : Nat) : Decidable (Conserved s pid) := by
  unfold Conserved
  cases h : findById s.products pid with
  | none => exact isTrue (by intro p i hp; cases hp)
  | some p =>
    cases hi : p.initialStock with
    | none => exact isTrue (by intro p1 i hp h1; cases hp; rw [hi] at h1; cases h1)
    | some i =>
      exact decidable_of_iff
        (p.quantity = i + sumQty s.transactions pid TxType.tin
          - sumQty s.transactions pid TxType.tout)
        ⟨by intro h0 p1 i1 hp h1; cases hp; rw [hi] at h1; cases h1; exact h0,
         fun h0 => h0 p i rfl hi⟩

/-- Every product of the store has a non-negative quantity. -/
def NonNegative (ps : List Product) : Prop := ∀ p ∈ ps, 0 ≤ p.quantity

instance (ps : List Product) : Decidable (NonNegative ps) := by
  unfold NonNegative; exact inferInstance

/-- An operation of the transaction processor with its request. -/
inductive Op where
  | single (now : Int) (userId productId : Nat) (supplierId : Option Nat)
      (type : TxType) (quantity : Int) (notes : Option String)
  | sale (now : Int) (userId : Nat) (items : List SaleItem)
      (paymentMethod : Option String)
  | reverse (tid : Nat)

/-- Runs one operation through its handler. -/
def applyOp (s : Store) : Op → Store × Response
  | Op.single now userId productId supplierId type quantity notes =>
    createTransaction s now userId productId supplierId type quantity notes
  | Op.sale now userId items paymentMethod =>
    createSale s now userId items paymentMethod
  | Op.reverse tid => deleteTransaction s tid

/-- Runs a sequence of operations, each of which has to succeed. -/
def runOps (s : Store) : List Op → Option Store
  | [] => some s
  | op :: rest =>
    if (applyOp s op).2.success then runOps (applyOp s op).1 rest else none

/-- The side condition under which an operation cannot take stock below zero:
a single transaction has a positive quantity; a reversal names a ledger entry
with a positive quantity that is an 'out', or an 'in' whose quantity the
product still holds. -/
def withinStock (s : Store) : Op → Bool
  | Op.single _ _ _ _ _ quantity _ => decide (0 < quantity)
  | Op.sale _ _ _ _ => true
  | Op.reverse tid =>
    match findTransaction s.transactions tid with
    | none => true
    | some tx =>
      match tx.type with
      | TxType.tout => decide (0 < tx.quantity)
      | TxType.tin =>
        match findById s.products tx.productId with
        | none => true
        | some p => decide (0 < tx.quantity ∧ tx.quantity ≤ p.quantity)

/-- The units of product `pid` asked for by an items list. -/
def itemsQty (items : List SaleItem) (pid : Nat) : Int :=
  ((items.filter (fun it => decide (it.productId = pid))).map (fun it => it.quantity)).sum

/-- The quantity an operation writes stays a safe integer, so that its one
addition or subtraction is exact. -/
def exactOp (s : Store) : Op → Bool
  | Op.single _ _ productId _ type quantity _ =>
    match findById s.products productId with
    | none => true
    | some p =>
      match type with
      | TxType.tin => decide (safeInt (p.quantity + quantity))
      | TxType.tout => decide (safeInt (p.quantity - quantity))
  | Op.sale _ _ items _ =>
    items.all (fun it =>
      match findById s.products it.productId with
      | none => true
      | some p => decide (safeInt (p.quantity - it.quantity)))
  | Op.reverse tid =>
    match findTransaction s.transactions tid with
    | none => true
    | some tx =>
      match findById s.products tx.productId with
      | none => true
      | some p =>
        match tx.type with
        | TxType.tin => decide (safeInt (p.quantity - tx.quantity))
        | TxType.tout => decide (safeInt (p.quantity + tx.quantity))

/-- Every operation of a run is exact in the store it meets. -/
def exactRun : Store → List Op → Bool
  | _, [] => true
  | s, op :: rest => exactOp s op && exactRun (applyOp s op).1 rest

/-- A sale names every product at most once; the other operations pass. -/
def distinctProducts : Op → Prop
  | Op.sale _ _ items _ => (items.map (fun it => it.productId)).Nodup
  | _ => True

/-! ## Reports: dates -/

/-- Milliseconds in a day. -/
def msPerDay : Int := 86400000

/-- Days from 1970-01-01 to the civil date `y`-`m`-`d` (proleptic Gregorian
calendar, `m` from 1 to 12). -/
def daysFromCivil (y m d : Int) : Int :=
  let y1 := if m ≤ 2 then y - 1 else y
  let era := y1 / 400
  let yoe := y1 - era * 400
  let mp := if m > 2 then m - 3 else m + 9
  let doy := (153 * mp + 2) / 5 + d - 1
  let doe := yoe * 365 + yoe / 4 - yoe / 100 + doy
  era * 146097 + doe - 719468

/-- The instant `new Date('YYYY-MM-DD')`: midnight UTC of the calendar day
`day`, a day count from 1970-01-01. -/
def parseDate (day : Int) : Int := day * msPerDay

/-- The instant after `setHours(0, 0, 0, 0)`: midnight, in the zone of the
server, of the local day in which `t` lies. -/
def setHoursStart (tz t : Int) : Int := (t + tz) / msPerDay * msPerDay - tz

/-- The instant after `setHours(23, 59, 59, 999)`. -/
def setHoursEnd (tz t : Int) : Int := setHoursStart tz t + msPerDay - 1

/-- The instant `new Date(year, monthIndex, 1)`: local midnight on the first of
the month.  `monthIndex` counts from 0 and 12 rolls over to January of the next
year; a year from 0 to 99 stands for 1900 + year. -/
def firstOfMonth (tz year monthIndex : Int) : Int :=
  let y := if 0 ≤ year ∧ year ≤ 99 then 1900 + year else year
  daysFromCivil (y + monthIndex / 12) (monthIndex % 12 + 1) 1 * msPerDay - tz

/-- The key `$dateToString: { format: '%Y-%m-%d', date: '$date' }`: the
calendar day of the instant in UTC, as a day count from 1970-01-01. -/
def utcDay (t : Int) : Int := t / msPerDay

/-! ## Reports: sales -/

/-- The `$match` stage of the sales reports: 'out' transactions dated in
`[start, stop)`. -/
def matchOut (ts : List Transaction) (start stop : Int) : List Transaction :=
  ts.filter (fun t => decide (t.type = TxType.tout ∧ start ≤ t.date ∧ t.date < stop))

/-- The joined price `$ifNull: ['$product.price', 0]` after `$lookup` and
`$unwind` with `preserveNullAndEmptyArrays`. -/
def priceOf (ps : List Product) (pid : Nat) : ℚ :=
  match findById ps pid with
  | some p => p.price.getD 0
  | none => 0

/-- The sum `$sum: { $multiply: ['$quantity', price] }` over a group. -/
def salesOf (ps : List Product) (ts : List Transaction) : ℚ :=
  (ts.map (fun t => (t.quantity : ℚ) * priceOf ps t.productId)).sum

/-- The `totals` object of the daily report. -/
structure Totals where
  totalSales : ℚ
  transactions : Nat
  itemsSold : Int
  deriving DecidableEq

/-- The answer of `dailySales`: the `date` field (the UTC day of `start`) and
the totals.  The per-product `items` lines are left out. -/
structure DailyReport where
  date : Int
  totals : Totals
  deriving DecidableEq

/-- The handler `dailySales`; `none` is the 400 answer for a missing date. -/
def dailySales (s : Store) (tz : Int) (date : Option Int) : Option DailyReport :=
  match date with
  | none => none
  | some d =>
    let start := setHoursStart tz (parseDate d)
    let stop := start + msPerDay
    let matched := matchOut s.transactions start stop
    let totals : Totals :=
      if matched.length = 0 then ⟨0, 0, 0⟩
      else ⟨salesOf s.products matched, matched.length,
            (matched.map (fun t => t.quantity)).sum⟩
    some ⟨utcDay start, totals⟩

/-- One element of `daily` in the monthly report. -/
structure DayBucket where
  day : Int
  sales : ℚ
  transactions : Nat
  deriving DecidableEq

/-- The answer of `monthlySales`. -/
structure MonthlyReport where
  month : Int
  year : Int
  totalSales : ℚ
  transactions : Nat
  daily : List DayBucket
  deriving DecidableEq

/-- Inserts a day into an ascending list without repetition. -/
def insertDay (d : Int) : List Int → List Int
  | [] => [d]
  | x :: xs =>
    if d < x then d :: x :: xs
    else if d = x then x :: xs
    else x :: insertDay d xs

/-- The group keys of the `$group` by day, in the order of `$sort: { day: 1 }`. -/
def dayKeys (ts : List Transaction) : List Int :=
  (ts.map (fun t => utcDay t.date)).foldr insertDay []

/-- The pipeline `dailyGroup` after the `$match`: one bucket per UTC day. -/
def dailyGroup (ps : List Product) (matched : List Transaction) : List DayBucket :=
  (dayKeys matched).map (fun d =>
    let g := matched.filter (fun t => decide (utcDay t.date = d))
    ⟨d, salesOf ps g, g.length⟩)

/-- The handler `monthlySales`; `none` is the 400 answer.  An argument that
`parseInt` cannot read is `none`. -/
def monthlySales (s : Store) (tz : Int) (month year : Option Int) :
    Option MonthlyReport :=
  match month, year with
  | some m, some y =>
    if m = 0 ∨ y = 0 ∨ m < 1 ∨ m > 12 then none
    else
      let start := firstOfMonth tz y (m - 1)
      let stop := firstOfMonth tz y m
      let matched := matchOut s.transactions start stop
      some ⟨m, y, if matched.length = 0 then 0 else salesOf s.products matched,
        matched.length, dailyGroup s.products matched⟩
  | _, _ => none

/-- The sales and transaction count of the bucket of day `d`, both zero when
the list has no such bucket. -/
def bucketOf (daily : List DayBucket) (d : Int) : ℚ × Nat :=
  match daily.find? (fun b => decide (b.day = d)) with
  | some b => (b.sales, b.transactions)
  | none => (0, 0)

/-! ## Reports: inventory -/

/-- The `status` of an inventory row. -/
inductive Status where
  | OK
  | LOW
  | OUT
  deriving DecidableEq, Repr

/-- The two `$group` stages and the object `map` built from their result: the
entry `{ in, out }` of a product, absent when no matched transaction names it. -/
def aggregateByProduct (ts : List Transaction) (pid : Nat) : Option (Int × Int) :=
  if ts.any (fun t => decide (t.productId = pid)) then
    some (sumQty ts pid TxType.tin, sumQty ts pid TxType.tout)
  else none

/-- The expression `map[id]?.in || 0`. -/
def inQtyOf (ts : List Transaction) (pid : Nat) : Int :=
  match aggregateByProduct ts pid with
  | some e => orZero e.1
  | none => 0

/-- The expression `map[id]?.out || 0`. -/
def outQtyOf (ts : List Transaction) (pid : Nat) : Int :=
  match aggregateByProduct ts pid with
  | some e => orZero e.2
  | none => 0

/-- The expression `initialApprox`. -/
def initialApprox (p : Product) (inQty outQty : Int) : Int :=
  match p.initialStock with
  | some i => i
  | none => jsSub p.quantity (jsSub inQty outQty)

/-- The status computed in `inventoryStatus` from `current` and
`initialApprox`, with `threshold = (initialApprox || 0) * 0.5`. -/
def classifyStatus (current initial : Int) : Status :=
  let threshold : ℚ := ((orZero initial : Int) : ℚ) * (1 / 2)
  if current ≤ 0 then Status.OUT
  else if (current : ℚ) ≤ threshold then Status.LOW
  else Status.OK

/-- A row of the inventory status report. -/
structure InventoryRow where
  id : Nat
  name : String
  sku : String
  category : String
  stock : Int
  initialStock : Int
  status : Status
  deriving DecidableEq

/-- The body of `products.map` in `inventoryStatus`. -/
def inventoryRow (ts : List Transaction) (p : Product) : InventoryRow :=
  let inQty := inQtyOf ts p.id
  let outQty := outQtyOf ts p.id
  let initial := initialApprox p inQty outQty
  let computedCurrent := jsSub (jsAdd (orZero initial) inQty) outQty
  let current := if p.initialStock.isSome then computedCurrent else p.quantity
  { id := p.id, name := p.name, sku := p.sku, category := p.category,
    stock := current, initialStock := initial,
    status := classifyStatus current initial }

/-- The handler `inventoryStatus`.  `regexMatch pattern text` is the
case-insensitive `$regex` test of the database. -/
def inventoryStatus (regexMatch : String → String → Bool) (s : Store)
    (search : Option String) : List InventoryRow :=
  let products :=
    match search with
    | none => s.products
    | some q =>
      if q = "" then s.products
      else s.products.filter (fun p => regexMatch q p.name || regexMatch q p.sku)
  products.map (inventoryRow s.transactions)

/-- A row of the stock report. -/
structure StockRow where
  id : Nat
  name : String
  sku : String
  category : String
  initial : Int
  stockedIn : Int
  sold : Int
  current : Int
  deriving DecidableEq

/-- The body of `products.map` in `stockReport`. -/
def stockRow (ts : List Transaction) (p : Product) : StockRow :=
  let inQty := inQtyOf ts p.id
  let outQty := outQtyOf ts p.id
  let initial := initialApprox p inQty outQty
  let current := jsSub (jsAdd (orZero initial) inQty) outQty
  { id := p.id, name := p.name, sku := p.sku, category := p.category,
    initial := orZero initial, stockedIn := inQty, sold := outQty,
    current := current }

/-- The handler `stockReport`; the two dates are calendar days. -/
def stockReport (s : Store) (tz : Int) (startDate endDate : Option Int) :
    List StockRow :=
  let matched :=
    if startDate.isSome ∨ endDate.isSome then
      s.transactions.filter (fun t =>
        (match startDate with
          | some d => decide (setHoursStart tz (parseDate d) ≤ t.date)
          | none => true) &&
        (match endDate with
          | some d => decide (t.date ≤ setHoursEnd tz (parseDate d))
          | none => true))
    else s.transactions
  s.products.map (stockRow matched)

/-- The intermediate results of the derivation in a row of `inventoryStatus`
are safe integers. -/
def exactRow (ts : List Transaction) (p : Product) : Prop :=
  match p.initialStock with
  | some i =>
    safeInt (i + sumQty ts p.id TxType.tin) ∧
    safeInt (i + sumQty ts p.id TxType.tin - sumQty ts p.id TxType.tout)
  | none =>
    safeInt (sumQty ts p.id TxType.tin - sumQty ts p.id TxType.tout) ∧
    safeInt (p.quantity - (sumQty ts p.id TxType.tin - sumQty ts p.id TxType.tout))

instance (ts : List Transaction) (p : Product) : Decidable (exactRow ts p) := by
  unfold exactRow
  cases p.initialStock <;> exact inferInstance

/-- The intermediate results of the derivation in a row of `stockReport` are
safe integers. -/
def exactStock (ts : List Transaction) (p : Product) : Prop :=
  match p.initialStock with
  | some i =>
    safeInt (i + sumQty ts p.id TxType.tin) ∧
    safeInt (i + sumQty ts p.id TxType.tin - sumQty ts p.id TxType.tout)
  | none =>
    safeInt (sumQty ts p.id TxType.tin - sumQty ts p.id TxType.tout) ∧
    safeInt (p.quantity - (sumQty ts p.id TxType.tin - sumQty ts p.id TxType.tout)) ∧
    safeInt (p.quantity + sumQty ts p.id TxType.tout) ∧
    safeInt p.quantity

instance (ts : List Transaction) (p : Product) : Decidable (exactStock ts p) := by
  unfold exactStock
  cases p.initialStock <;> exact inferInstance

/-! ## Sample stores -/

/-- A product with 10 units, tracked from 10. -/
def soap : Product :=
  { id := 1, name := "Soap", sku := "SP-1", category := "Bath", price := some 25,
    quantity := 10,
    initialStock := some 10 }

/-- A store with one product and an empty ledger. -/
def shop : Store := { products := [soap], transactions := [] }

/-- A restock of 10 units of product 1. -/
def restock : Transaction :=
  { id := 1, productId := 1, supplierId := none, type := TxType.tin, quantity := 10,
    date := 0, userId := 7, notes := none }

/-- A sale of 5 units of product 1. -/
def sold5 : Transaction :=
  { id := 2, productId := 1, supplierId := none, type := TxType.tout, quantity := 5,
    date := 1, userId := 7, notes := none }

/-- Product 1 with 5 units, tracked from 0. -/
def soapAfterSale : Product := { soap with quantity := 5, initialStock := some 0 }

/-- Product 1 started at 0, was restocked by 10 and sold 5: 5 units left. -/
def shopAfterSale : Store :=
  { products := [soapAfterSale], transactions := [restock, sold5] }

/-- A ledger entry whose product (id 9) is no longer in the catalogue. -/
def orphanStore : Store :=
  { products := [soap],
    transactions := [{ restock with id := 4, productId := 9 }] }

/-- A product whose stock is 2^53 units. -/
def bulk : Product := { soap with quantity := 9007199254740992, initialStock := none }

/-- A store with the bulk product and an empty ledger. -/
def bulkShop : Store := { products := [bulk], transactions := [] }

/-- The bulk product with 2^53 + 2 units and no initial stock on record. -/
def bulkUntracked : Product := { bulk with quantity := 9007199254740994 }

/-- The bulk product tracked from an initial stock of 2^53 units. -/
def bulkTracked : Product := { bulk with initialStock := some 9007199254740992 }

/-- A ledger with one restock of a single unit of product 1. -/
def oneUnit : List Transaction := [{ restock with quantity := 1 }]

/-- A store with the untracked bulk product and the restock of one unit. -/
def bulkLedger : Store := { products := [bulkUntracked], transactions := oneUnit }

/-- A sale of 3 units of product 1 on 2025-01-15 at 20:00 UTC, which is
2025-01-16 at 04:00 on a server eight hours east of Greenwich. -/
def nightSale : Transaction :=
  { id := 1, productId := 1, supplierId := none, type := TxType.tout, quantity := 3,
    date := daysFromCivil 2025 1 15 * msPerDay + 20 * 3600000, userId := 7,
    notes := none }

/-- A store whose ledger holds the night sale. -/
def nightShop : Store := { products := [soap], transactions := [nightSale] }

/-- The offset of a server eight hours east of Greenwich. -/
def utcPlus8 : Int := 8 * 3600000

/-! ## Lemmas on the collection primitives -/

theorem orZero_eq (x : Int) : orZero x = x := by
  unfold orZero; split <;> simp_all

/-! ## Lemmas on the arithmetic -/

theorem excessBits_of_lt (fuel n : Nat) (h : n < 9007199254740992) :
    excessBits fuel n = 0 := by
  cases fuel with
  | zero => rfl
  | succ f => simp [excessBits, h]

theorem roundDouble_of_safe (x : Int) (h : safeInt x) : roundDouble x = x := by
  have hn : x.natAbs < 9007199254740992 := by
    unfold safeInt at h
    omega
  unfold roundDouble
  simp only [excessBits_of_lt _ _ hn, pow_zero, Nat.div_one, Nat.mod_one, mul_zero,
    if_true, mul_one, zero_lt_one]
  exact Int.sign_mul_natAbs x

theorem roundDouble_nonneg (x : Int) (h : 0 ≤ x) : 0 ≤ roundDouble x := by
  unfold roundDouble
  apply mul_nonneg
  · exact Int.sign_nonneg.mpr h
  · exact Int.ofNat_nonneg _

theorem jsAdd_of_safe (a b : Int) (h : safeInt (a + b)) : jsAdd a b = a + b :=
  roundDouble_of_safe _ h

theorem jsSub_of_safe (a b : Int) (h : safeInt (a - b)) : jsSub a b = a - b :=
  roundDouble_of_safe _ h

theorem jsAdd_nonneg (a b : Int) (h : 0 ≤ a + b) : 0 ≤ jsAdd a b :=
  roundDouble_nonneg _ h

theorem jsSub_nonneg (a b : Int) (h : 0 ≤ a - b) : 0 ≤ jsSub a b :=
  roundDouble_nonneg _ h

theorem findById_id {ps : List Product} {pid : Nat} {p : Product}
    (h : findById ps pid = some p) : p.id = pid := by
  have := List.find?_some h
  simpa using this

theorem findById_mem {ps : List Product} {pid : Nat} {p : Product}
    (h : findById ps pid = some p) : p ∈ ps :=
  List.mem_of_find?_eq_some h

theorem findById_save_ne (ps : List Product) (doc : Product) (pid : Nat)
    (h : pid ≠ doc.id) : findById (save ps doc) pid = findById ps pid := by
  induction ps with
  | nil => rfl
  | cons p ps ih =>
    unfold save
    by_cases hp : p.id = doc.id
    · have h1 : ¬ p.id = pid := fun e => h (e.symm.trans hp)
      simp [hp, findById, List.find?_cons, h1, h]
      simp [← hp, h1]
    · simp only [hp, if_false]
      unfold findById at ih ⊢
      simp only [List.find?_cons]
      rw [ih]

theorem findById_save_eq (ps : List Product) (doc : Product) :
    findById (save ps doc) doc.id =
      (findById ps doc.id).map (fun p => { p with quantity := doc.quantity }) := by
  induction ps with
  | nil => rfl
  | cons p ps ih =>
    unfold save
    by_cases hp : p.id = doc.id
    · simp [hp, findById, List.find?_cons]
    · simp only [hp, if_false]
      unfold findById at ih ⊢
      simp only [List.find?_cons, hp, decide_False]
      exact ih

theorem findById_save_of_found (ps : List Product) (p : Product) (pid : Nat) (q : Int)
    (h : findById ps pid = some p) :
    findById (save ps { p with quantity := q }) pid = some { p with quantity := q } := by
  have hid : p.id = pid := findById_id h
  subst hid
  have := findById_save_eq ps { p with quantity := q }
  rw [this, h]
  rfl

theorem save_save (ps : List Product) (d1 d2 : Product) (h : d1.id = d2.id) :
    save (save ps d1) d2 = save ps d2 := by
  induction ps with
  | nil => rfl
  | cons p ps ih =>
    by_cases hp : p.id = d1.id
    · simp [save, hp, h]
    · have hp2 : ¬ p.id = d2.id := h ▸ hp
      simp [save, hp, hp2, ih]

theorem save_self (ps : List Product) (doc p : Product)
    (h : findById ps doc.id = some p) (hq : doc.quantity = p.quantity) :
    save ps doc = ps := by
  induction ps with
  | nil => rfl
  | cons a ps ih =>
    by_cases hp : a.id = doc.id
    · have : a = p := by simpa [findById, List.find?_cons, hp] using h
      subst this
      obtain ⟨i, n, k, c, pr, q, ini⟩ := a
      have hp1 : i = doc.id := hp
      simp only [save, hp1, if_true, hq]
    · have h1 : findById ps doc.id = some p := by
        simpa [findById, List.find?_cons, hp] using h
      simp [save, hp, ih h1]

theorem le_foldr_max (l : List Nat) (x : Nat) (h : x ∈ l) : x ≤ l.foldr max 0 := by
  induction l with
  | nil => cases h
  | cons a l ih =>
    simp only [List.foldr_cons]
    rcases List.mem_cons.mp h with rfl | h1
    · exact le_max_left _ _
    · exact le_trans (ih h1) (le_max_right _ _)

theorem freshId_fresh (ts : List Transaction) (t : Transaction) (h : t ∈ ts) :
    t.id ≠ freshId ts := by
  have h1 : t.id ≤ (ts.map (fun t => t.id)).foldr max 0 :=
    le_foldr_max _ _ (List.mem_map_of_mem _ h)
  unfold freshId
  omega

theorem findTransaction_append_fresh (ts : List Transaction) (t : Transaction)
    (h : t.id = freshId ts) : findTransaction (ts ++ [t]) (freshId ts) = some t := by
  unfold findTransaction
  rw [List.find?_append]
  have : ts.find? (fun t => decide (t.id = freshId ts)) = none := by
    rw [List.find?_eq_none]
    intro x hx
    simpa using freshId_fresh ts x hx
  simp [this, h]

theorem findByIdAndDelete_append_of_fresh (ts : List Transaction) (t : Transaction)
    (tid : Nat) (h : ∀ x ∈ ts, x.id ≠ tid) (ht : t.id = tid) :
    findByIdAndDelete (ts ++ [t]) tid = ts := by
  induction ts with
  | nil => simp [findByIdAndDelete, ht]
  | cons a ts ih =>
    have ha : ¬ a.id = tid := h a (List.mem_cons_self _ _)
    have e : findByIdAndDelete (a :: (ts ++ [t])) tid
        = a :: findByIdAndDelete (ts ++ [t]) tid := by
      simp only [findByIdAndDelete, ha, if_false]
    rw [List.cons_append, e, ih (fun x hx => h x (List.mem_cons_of_mem _ hx))]

/-! ## Lemmas on the handlers -/

theorem validateItems_error (ps : List Product) (items : List SaleItem)
    (h : ∃ it ∈ items, findById ps it.productId = none ∨
      ∃ p, findById ps it.productId = some p ∧ p.quantity < it.quantity) :
    ∃ r, validateItems ps items = Except.error r ∧ r.success = false := by
  induction items with
  | nil => obtain ⟨it, hit, _⟩ := h; cases hit
  | cons a rest ih =>
    unfold validateItems
    cases hf : findById ps a.productId with
    | none => exact ⟨_, rfl, rfl⟩
    | some product =>
      simp only [orZero_eq]
      by_cases hq : product.quantity < a.quantity
      · simp only [hq, if_true]; exact ⟨_, rfl, rfl⟩
      · simp only [hq, if_false]
        have h1 : ∃ it ∈ rest, findById ps it.productId = none ∨
            ∃ p, findById ps it.productId = some p ∧ p.quantity < it.quantity := by
          obtain ⟨it, hit, hbad⟩ := h
          rcases List.mem_cons.mp hit with rfl | hin
          · rcases hbad with hn | ⟨p, hp, hlt⟩
            · rw [hf] at hn; cases hn
            · rw [hf] at hp; cases hp; exact absurd hlt hq
          · exact ⟨it, hin, hbad⟩
        obtain ⟨r, hr, hs⟩ := ih h1
        rw [hr]; exact ⟨r, rfl, hs⟩

/-! ## Atomicity of a sale -/

/-- C2: when an item of the list names a missing product or asks for more than
the stored quantity, `createSale` answers with a failure and returns the store
it was given: product quantities and ledger are untouched. -/
theorem createSale_atomic (s : Store) (now : Int) (userId : Nat)
    (items : List SaleItem) (paymentMethod : Option String)
    (h : ∃ it ∈ items, findById s.products it.productId = none ∨
      ∃ p, findById s.products it.productId = some p ∧ p.quantity < it.quantity) :
    (createSale s now userId items paymentMethod).2.success = false ∧
      (createSale s now userId items paymentMethod).1 = s := by
  obtain ⟨r, hr, hs⟩ := validateItems_error s.products items h
  have hne : ¬ items.length = 0 := by
    obtain ⟨it, hit, _⟩ := h
    intro h0
    rw [List.length_eq_zero.mp h0] at hit
    cases hit
  unfold createSale
  simp only [hne, if_false, hr]
  exact ⟨hs, trivial⟩

/-- C2 at a concrete sale: the second item asks for 50 of a product with 10. -/
theorem createSale_atomic_witness :
    (createSale shop 0 7 [⟨1, 3⟩, ⟨1, 50⟩] none).2.success = false ∧
      (createSale shop 0 7 [⟨1, 3⟩, ⟨1, 50⟩] none).1 = shop :=
  createSale_atomic shop 0 7 [⟨1, 3⟩, ⟨1, 50⟩] none
    ⟨⟨1, 50⟩, by decide, Or.inr ⟨soap, by decide, by decide⟩⟩

/-! ## Reversal -/

/-- C3 fails as stated: the product holds 2^53 units; a restock of 1 succeeds
and leaves the quantity at 2^53 (the sum is not a double), and the deletion of
the created transaction succeeds and leaves 2^53 - 1 units, not the 2^53 from
before the creation. -/
theorem reversal_loses_unit_beyond_safe_range :
    (createTransaction bulkShop 0 7 1 none TxType.tin 1 none).2.success = true ∧
    ((createTransaction bulkShop 0 7 1 none TxType.tin 1 none).2.data.map
      (fun t => t.id)) = [1] ∧
    (findById (createTransaction bulkShop 0 7 1 none TxType.tin 1 none).1.products 1).map
      (fun p => p.quantity) = some 9007199254740992 ∧
    (deleteTransaction (createTransaction bulkShop 0 7 1 none TxType.tin 1 none).1
      1).2.success = true ∧
    (findById (deleteTransaction
      (createTransaction bulkShop 0 7 1 none TxType.tin 1 none).1 1).1.products 1).map
      (fun p => p.quantity) = some 9007199254740991 ∧
    (findById bulkShop.products 1).map (fun p => p.quantity) = some 9007199254740992 :=
  ⟨by decide, by decide, by decide, by decide, by decide, by decide⟩

/-- C3 as amended: when `createTransaction` succeeds on a product whose
quantity before and after the update is a safe integer, its answer carries the
transaction it created, and `deleteTransaction` on that transaction succeeds
and gives back the store from before the creation: the quantity of the product
is restored and the ledger is the earlier one. -/
theorem reversal_inverse (s : Store) (now : Int) (userId productId : Nat)
    (supplierId : Option Nat) (type : TxType) (quantity : Int) (notes : Option String)
    (product : Product) (hf : findById s.products productId = some product)
    (h : (createTransaction s now userId productId supplierId type quantity notes).2.success
      = true)
    (h1 : safeInt product.quantity)
    (h2 : safeInt (match type with
      | TxType.tin => product.quantity + quantity
      | TxType.tout => product.quantity - quantity)) :
    ∃ tx, (createTransaction s now userId productId supplierId type quantity notes).2.data
        = [tx] ∧
      (deleteTransaction
        (createTransaction s now userId productId supplierId type quantity notes).1
        tx.id).2.success = true ∧
      (deleteTransaction
        (createTransaction s now userId productId supplierId type quantity notes).1
        tx.id).1.transactions = s.transactions ∧
      (findById (deleteTransaction
        (createTransaction s now userId productId supplierId type quantity notes).1
        tx.id).1.products productId).map (fun p => p.quantity)
        = (findById s.products productId).map (fun p => p.quantity) ∧
      (deleteTransaction
        (createTransaction s now userId productId supplierId type quantity notes).1
        tx.id).1 = s := by
  have key : ∀ (tx : Transaction) (q1 : Int),
      findById s.products product.id = some product →
      tx.id = freshId s.transactions → tx.productId = product.id →
      (match tx.type with
        | TxType.tin => jsSub q1 tx.quantity
        | TxType.tout => jsAdd q1 tx.quantity) = product.quantity →
      deleteTransaction
        { products := save s.products { product with quantity := q1 },
          transactions := s.transactions ++ [tx] } tx.id =
        (s, ⟨200, true, "Transaction deleted successfully", []⟩) := by
    intro tx q1 hf hfresh hpid hback
    unfold deleteTransaction
    have e0 : findTransaction (s.transactions ++ [tx]) tx.id = some tx := by
      rw [hfresh]; exact findTransaction_append_fresh s.transactions tx hfresh
    have e1 : findById (save s.products { product with quantity := q1 }) tx.productId
        = some { product with quantity := q1 } := by
      rw [hpid]; exact findById_save_of_found s.products product product.id q1 hf
    have e2 : findByIdAndDelete (s.transactions ++ [tx]) tx.id = s.transactions :=
      findByIdAndDelete_append_of_fresh _ _ _
        (fun x hx => hfresh ▸ freshId_fresh s.transactions x hx) rfl
    have e3 : ∀ q2 : Int, q2 = product.quantity →
        save (save s.products { product with quantity := q1 })
          { product with quantity := q2 } = s.products := by
      intro q2 hq2
      rw [save_save s.products { product with quantity := q1 }
        { product with quantity := q2 } rfl]
      exact save_self _ _ product hf hq2
    simp only [e0, e1, e2]
    cases hty : tx.type with
    | tin =>
      rw [hty] at hback
      simp only at hback ⊢
      rw [e3 _ hback]
    | tout =>
      rw [hty] at hback
      simp only at hback ⊢
      rw [e3 _ hback]
  have hid : product.id = productId := findById_id hf
  subst hid
  unfold createTransaction at h ⊢
  by_cases hc : type = TxType.tout ∧ product.quantity < quantity
  · simp [hf, hc] at h
  · simp only [hf, hc, if_false]
    refine ⟨_, rfl, ?_⟩
    cases type with
    | tin =>
      simp only at h2
      have hback : jsSub (jsAdd product.quantity quantity) quantity = product.quantity := by
        rw [jsAdd_of_safe _ _ h2]
        have e : product.quantity + quantity - quantity = product.quantity := by omega
        rw [jsSub_of_safe _ _ (by rw [e]; exact h1), e]
      have := key
        { id := freshId s.transactions, productId := product.id,
          supplierId := supplierId, type := TxType.tin, quantity := quantity,
          date := now, userId := userId, notes := notes }
        (jsAdd product.quantity quantity) hf rfl rfl hback
      simp only at this ⊢
      rw [this]
      exact ⟨rfl, rfl, by rw [hf], rfl⟩
    | tout =>
      simp only at h2
      have hback : jsAdd (jsSub product.quantity quantity) quantity = product.quantity := by
        rw [jsSub_of_safe _ _ h2]
        have e : product.quantity - quantity + quantity = product.quantity := by omega
        rw [jsAdd_of_safe _ _ (by rw [e]; exact h1), e]
      have := key
        { id := freshId s.transactions, productId := product.id,
          supplierId := supplierId, type := TxType.tout, quantity := quantity,
          date := now, userId := userId, notes := notes }
        (jsSub product.quantity quantity) hf rfl rfl hback
      simp only at this ⊢
      rw [this]
      exact ⟨rfl, rfl, by rw [hf], rfl⟩

/-- C3 as amended, at a concrete restock of 5 units. -/
theorem reversal_inverse_witness :
    ∃ tx, (createTransaction shop 0 7 1 none TxType.tin 5 none).2.data = [tx] ∧
      (deleteTransaction (createTransaction shop 0 7 1 none TxType.tin 5 none).1
        tx.id).2.success = true ∧
      (deleteTransaction (createTransaction shop 0 7 1 none TxType.tin 5 none).1
        tx.id).1.transactions = shop.transactions ∧
      (findById (deleteTransaction (createTransaction shop 0 7 1 none TxType.tin 5 none).1
        tx.id).1.products 1).map (fun p => p.quantity)
        = (findById shop.products 1).map (fun p => p.quantity) ∧
      (deleteTransaction (createTransaction shop 0 7 1 none TxType.tin 5 none).1
        tx.id).1 = shop :=
  reversal_inverse shop 0 7 1 none TxType.tin 5 none soap (by decide) (by decide)
    (by decide) (by decide)

/-! ## Insufficient stock -/

/-- C5: for an existing product, an 'out' `createTransaction` answers
400 'Insufficient stock' exactly when the stored quantity is below the
requested one, and then returns the store it was given; otherwise it succeeds. -/
theorem insufficient_stock_iff (s : Store) (now : Int) (userId productId : Nat)
    (supplierId : Option Nat) (quantity : Int) (notes : Option String)
    (product : Product) (hf : findById s.products productId = some product) :
    ((createTransaction s now userId productId supplierId TxType.tout quantity notes).2
        = ⟨400, false, "Insufficient stock", []⟩ ↔ product.quantity < quantity) ∧
      (product.quantity < quantity →
        (createTransaction s now userId productId supplierId TxType.tout quantity notes).1
          = s) ∧
      (¬ product.quantity < quantity →
        (createTransaction s now userId productId supplierId TxType.tout quantity
          notes).2.success = true) := by
  unfold createTransaction
  simp only [hf, true_and]
  by_cases hq : product.quantity < quantity
  · simp [hq]
  · simp [hq]

/-- C5 at a concrete request: 11 units out of a stock of 10. -/
theorem insufficient_stock_iff_witness :
    ((createTransaction shop 0 7 1 none TxType.tout 11 none).2
        = ⟨400, false, "Insufficient stock", []⟩ ↔ soap.quantity < 11) ∧
      (soap.quantity < 11 →
        (createTransaction shop 0 7 1 none TxType.tout 11 none).1 = shop) ∧
      (¬ soap.quantity < 11 →
        (createTransaction shop 0 7 1 none TxType.tout 11 none).2.success = true) :=
  insufficient_stock_iff shop 0 7 1 none 11 none soap (by decide)

/-! ## Reversal against a missing product -/

/-- C6 fails as stated: the ledger entry 4 names product 9, which is not in the
catalogue, and `deleteTransaction` answers 200 with `success: true`. -/
theorem delete_orphan_reports_success :
    (∃ t, findTransaction orphanStore.transactions 4 = some t ∧
      findById orphanStore.products t.productId = none) ∧
    (deleteTransaction orphanStore 4).2.success = true ∧
    (deleteTransaction orphanStore 4).2.status = 200 :=
  ⟨⟨{ restock with id := 4, productId := 9 }, by decide, by decide⟩,
   by decide, by decide⟩

/-- C6 as amended: when the product of an existing transaction is gone,
`deleteTransaction` removes the ledger entry, leaves the products as they are
and answers 200 'Transaction deleted successfully'. -/
theorem delete_orphan (s : Store) (tid : Nat) (t : Transaction)
    (ht : findTransaction s.transactions tid = some t)
    (hp : findById s.products t.productId = none) :
    deleteTransaction s tid =
      ({ products := s.products, transactions := findByIdAndDelete s.transactions tid },
       ⟨200, true, "Transaction deleted successfully", []⟩) := by
  unfold deleteTransaction
  simp only [ht, hp]

/-- C6 as amended, at the ledger entry whose product is gone. -/
theorem delete_orphan_witness :
    deleteTransaction orphanStore 4 =
      ({ products := orphanStore.products,
         transactions := findByIdAndDelete orphanStore.transactions 4 },
       ⟨200, true, "Transaction deleted successfully", []⟩) :=
  delete_orphan orphanStore 4 { restock with id := 4, productId := 9 }
    (by decide) (by decide)

/-! ## Stock stays non-negative -/

theorem nonNegative_save (ps : List Product) (doc : Product)
    (h : NonNegative ps) (hd : 0 ≤ doc.quantity) : NonNegative (save ps doc) := by
  induction ps with
  | nil => exact h
  | cons a ps ih =>
    have ha : 0 ≤ a.quantity := h a (List.mem_cons_self _ _)
    have hps : NonNegative ps := fun x hx => h x (List.mem_cons_of_mem _ hx)
    unfold save
    by_cases hp : a.id = doc.id
    · simp only [hp, if_true]
      intro x hx
      rcases List.mem_cons.mp hx with rfl | hx1
      · exact hd
      · exact hps x hx1
    · simp only [hp, if_false]
      intro x hx
      rcases List.mem_cons.mp hx with rfl | hx1
      · exact ha
      · exact ih hps x hx1

theorem validateItems_ok_le (ps : List Product) (items : List SaleItem)
    (l : List (Product × Int)) (h : validateItems ps items = Except.ok l) :
    ∀ x ∈ l, x.2 ≤ x.1.quantity := by
  induction items generalizing l with
  | nil =>
    simp only [validateItems, Except.ok.injEq] at h
    subst h; intro x hx; cases hx
  | cons a rest ih =>
    unfold validateItems at h
    cases hf : findById ps a.productId with
    | none => simp [hf] at h
    | some product =>
      simp only [hf, orZero_eq] at h
      by_cases hq : product.quantity < a.quantity
      · simp [hq] at h
      · simp only [hq, if_false] at h
        cases hr : validateItems ps rest with
        | error r => simp [hr] at h
        | ok l1 =>
          simp only [hr, Except.ok.injEq] at h
          subst h
          intro x hx
          rcases List.mem_cons.mp hx with rfl | hx1
          · exact not_lt.mp hq
          · exact ih l1 hr x hx1

theorem nonNegative_deductStock (l : List (Product × Int)) (ps : List Product)
    (h : NonNegative ps) (hl : ∀ x ∈ l, x.2 ≤ x.1.quantity) :
    NonNegative (deductStock ps l) := by
  induction l generalizing ps with
  | nil => exact h
  | cons a rest ih =>
    obtain ⟨product, qty⟩ := a
    unfold deductStock
    apply ih
    · apply nonNegative_save _ _ h
      have := hl (product, qty) (List.mem_cons_self _ _)
      simp only at this ⊢
      exact jsSub_nonneg _ _ (by omega)
    · exact fun x hx => hl x (List.mem_cons_of_mem _ hx)

/-- C4 fails as stated: product 1 holds 5 units after a restock of 10 and a
sale of 5; deleting the restock succeeds and leaves the product at -5. -/
theorem delete_restock_goes_negative :
    NonNegative shopAfterSale.products ∧
    (deleteTransaction shopAfterSale 1).2.success = true ∧
    (findById (deleteTransaction shopAfterSale 1).1.products 1).map
      (fun p => p.quantity) = some (-5) ∧
    ¬ NonNegative (deleteTransaction shopAfterSale 1).1.products :=
  ⟨by decide, by decide, by decide, by decide⟩

/-- C4 as amended: from a store whose quantities are all non-negative, a
successful operation leaves them non-negative when it is a single transaction
with positive quantity, a sale, or a reversal of a ledger entry with positive
quantity that is an 'out' or an 'in' not larger than the quantity the product
holds. -/
theorem stock_stays_nonNegative (s : Store) (op : Op)
    (h : NonNegative s.products) (hop : withinStock s op = true)
    (hs : (applyOp s op).2.success = true) :
    NonNegative (applyOp s op).1.products := by
  cases op with
  | single now userId productId supplierId type quantity notes =>
    simp only [withinStock, decide_eq_true_eq] at hop
    simp only [applyOp] at hs ⊢
    unfold createTransaction at hs ⊢
    cases hf : findById s.products productId with
    | none => simp [hf] at hs
    | some product =>
      have hq : 0 ≤ product.quantity := h product (findById_mem hf)
      by_cases hc : type = TxType.tout ∧ product.quantity < quantity
      · simp [hf, hc] at hs
      · simp only [hf, hc, if_false]
        apply nonNegative_save _ _ h
        cases type with
        | tin => exact jsAdd_nonneg _ _ (by omega)
        | tout =>
          simp only [true_and, not_lt] at hc
          exact jsSub_nonneg _ _ (by omega)
  | sale now userId items paymentMethod =>
    simp only [applyOp] at hs ⊢
    unfold createSale at hs ⊢
    by_cases h0 : items.length = 0
    · simp [h0] at hs
    · cases hv : validateItems s.products items with
      | error r =>
        simp only [h0, if_false, hv]
        exact h
      | ok l =>
        simp only [h0, if_false, hv]
        exact nonNegative_deductStock l s.products h
          (validateItems_ok_le s.products items l hv)
  | reverse tid =>
    simp only [applyOp] at hs ⊢
    unfold withinStock at hop
    unfold deleteTransaction at hs ⊢
    cases ht : findTransaction s.transactions tid with
    | none => simp [ht] at hs
    | some tx =>
      simp only [ht] at hop ⊢
      cases hf : findById s.products tx.productId with
      | none => simpa [hf] using h
      | some product =>
        have hq : 0 ≤ product.quantity := h product (findById_mem hf)
        cases hty : tx.type with
        | tin =>
          simp only [hty, hf, decide_eq_true_eq] at hop
          simp only
          apply nonNegative_save _ _ h
          exact jsSub_nonneg _ _ (by omega)
        | tout =>
          simp only [hty, decide_eq_true_eq] at hop
          simp only
          apply nonNegative_save _ _ h
          exact jsAdd_nonneg _ _ (by omega)

/-- C4 as amended, at the reversal of the sale of 5 units. -/
theorem stock_stays_nonNegative_witness :
    NonNegative (applyOp shopAfterSale (Op.reverse 2)).1.products :=
  stock_stays_nonNegative shopAfterSale (Op.reverse 2)
    (by decide) (by decide) (by decide)

/-! ## Conservation -/

theorem sumQty_append (ts : List Transaction) (t : Transaction) (pid : Nat)
    (ty : TxType) :
    sumQty (ts ++ [t]) pid ty =
      sumQty ts pid ty + (if t.productId = pid ∧ t.type = ty then t.quantity else 0) := by
  unfold sumQty
  rw [List.filter_append, List.map_append, List.sum_append]
  by_cases h : t.productId = pid ∧ t.type = ty
  · simp [List.filter_cons, h]
  · simp [List.filter_cons, h]

theorem sumQty_cons (t : Transaction) (ts : List Transaction) (pid : Nat)
    (ty : TxType) :
    sumQty (t :: ts) pid ty =
      (if t.productId = pid ∧ t.type = ty then t.quantity else 0) + sumQty ts pid ty := by
  unfold sumQty
  by_cases h : t.productId = pid ∧ t.type = ty
  · simp [List.filter_cons, h]
  · simp [List.filter_cons, h]

theorem sumQty_delete (ts : List Transaction) (tid : Nat) (tx : Transaction)
    (pid : Nat) (ty : TxType) (h : findTransaction ts tid = some tx) :
    sumQty (findByIdAndDelete ts tid) pid ty =
      sumQty ts pid ty - (if tx.productId = pid ∧ tx.type = ty then tx.quantity else 0) := by
  induction ts with
  | nil => cases h
  | cons a ts ih =>
    by_cases ha : a.id = tid
    · have : a = tx := by simpa [findTransaction, List.find?_cons, ha] using h
      subst this
      simp only [findByIdAndDelete, ha, if_true, sumQty_cons]
      omega
    · have h1 : findTransaction ts tid = some tx := by
        simpa [findTransaction, List.find?_cons, ha] using h
      simp only [findByIdAndDelete, ha, if_false, sumQty_cons, ih h1]
      omega

theorem createRecords_sumQty (now : Int) (userId : Nat) (notes : String)
    (items : List SaleItem) (ts : List Transaction) (pid : Nat) :
    sumQty (createRecords now userId notes ts items).1 pid TxType.tin
        = sumQty ts pid TxType.tin ∧
      sumQty (createRecords now userId notes ts items).1 pid TxType.tout
        = sumQty ts pid TxType.tout + itemsQty items pid := by
  induction items generalizing ts with
  | nil => simp [createRecords, itemsQty]
  | cons a rest ih =>
    simp only [createRecords]
    obtain ⟨h1, h2⟩ := ih (ts ++ [saleRecord now userId notes ts a])
    rw [h1, h2, sumQty_append, sumQty_append]
    constructor
    · simp [saleRecord]
    · by_cases hp : a.productId = pid
      · simp [saleRecord, itemsQty, List.filter_cons, hp]; omega
      · simp [saleRecord, itemsQty, List.filter_cons, hp]

theorem itemsQty_eq_zero (items : List SaleItem) (pid : Nat)
    (h : pid ∉ items.map (fun it => it.productId)) : itemsQty items pid = 0 := by
  unfold itemsQty
  have : items.filter (fun it => decide (it.productId = pid)) = [] := by
    rw [List.filter_eq_nil_iff]
    intro it hit
    simp only [decide_eq_true_eq]
    intro e
    exact h (e ▸ List.mem_map_of_mem _ hit)
  rw [this]; rfl

theorem findById_deductStock (items : List SaleItem) (ps0 ps : List Product)
    (l : List (Product × Int)) (hv : validateItems ps0 items = Except.ok l)
    (hn : (items.map (fun it => it.productId)).Nodup)
    (hsame : ∀ it ∈ items, findById ps it.productId = findById ps0 it.productId)
    (hex : ∀ it ∈ items, ∀ p, findById ps0 it.productId = some p →
      safeInt (p.quantity - it.quantity))
    (pid : Nat) :
    findById (deductStock ps l) pid =
      (findById ps pid).map
        (fun p => { p with quantity := p.quantity - itemsQty items pid }) := by
  induction items generalizing ps l with
  | nil =>
    simp only [validateItems, Except.ok.injEq] at hv
    subst hv
    cases hf : findById ps pid with
    | none => simp [deductStock, hf]
    | some p => simp [deductStock, hf, itemsQty]
  | cons a rest ih =>
    unfold validateItems at hv
    cases hf : findById ps0 a.productId with
    | none => simp [hf] at hv
    | some product =>
      simp only [hf, orZero_eq] at hv
      by_cases hq : product.quantity < a.quantity
      · simp [hq] at hv
      · simp only [hq, if_false] at hv
        cases hr : validateItems ps0 rest with
        | error r => simp [hr] at hv
        | ok l1 =>
          simp only [hr, Except.ok.injEq] at hv
          subst hv
          have hid : product.id = a.productId := findById_id hf
          rw [List.map_cons, List.nodup_cons] at hn
          have hnd := hn
          have hps : findById ps a.productId = some product := by
            rw [hsame a (List.mem_cons_self _ _), hf]
          have hexact : jsSub product.quantity a.quantity
              = product.quantity - a.quantity :=
            jsSub_of_safe _ _ (hex a (List.mem_cons_self _ _) product hf)
          have hrest : ∀ it ∈ rest,
              findById (save ps { product with quantity := product.quantity - a.quantity })
                it.productId = findById ps0 it.productId := by
            intro it hit
            rw [findById_save_ne, hsame it (List.mem_cons_of_mem _ hit)]
            intro e
            apply hnd.1
            simp only at e
            rw [← hid, ← e]
            exact List.mem_map_of_mem _ hit
          simp only [deductStock, hexact]
          rw [ih _ l1 hr hnd.2 hrest
            (fun it hit => hex it (List.mem_cons_of_mem _ hit))]
          by_cases hp : pid = a.productId
          · subst hp
            have h0 : itemsQty rest a.productId = 0 := itemsQty_eq_zero _ _ hnd.1
            have h1 : itemsQty (a :: rest) a.productId = a.quantity := by
              have : itemsQty (a :: rest) a.productId
                  = a.quantity + itemsQty rest a.productId := by
                simp [itemsQty, List.filter_cons]
              rw [this, h0]; omega
            rw [findById_save_of_found ps product a.productId _ hps, hps, h0, h1]
            simp
          · have h1 : itemsQty (a :: rest) pid = itemsQty rest pid := by
              have hp1 : ¬ a.productId = pid := fun e => hp e.symm
              simp [itemsQty, List.filter_cons, hp1]
            rw [findById_save_ne _ _ _ (by simpa [hid] using hp), h1]

/-- Conservation is kept by every successful operation of the transaction
processor that writes a safe integer and whose sale, if it is one, names each
product at most once. -/
theorem conservation_step (s : Store) (op : Op) (pid : Nat)
    (hd : distinctProducts op) (hx : exactOp s op = true)
    (hs : (applyOp s op).2.success = true)
    (h : Conserved s pid) : Conserved (applyOp s op).1 pid := by
  cases op with
  | single now userId productId supplierId type quantity notes =>
    simp only [applyOp] at hs ⊢
    simp only [exactOp] at hx
    unfold createTransaction at hs ⊢
    cases hf : findById s.products productId with
    | none => simp [hf] at hs
    | some product =>
      have hid : product.id = productId := findById_id hf
      simp only [hf] at hx
      by_cases hc : type = TxType.tout ∧ product.quantity < quantity
      · simp [hf, hc] at hs
      · simp only [hf, hc, if_false]
        intro p i hp hi
        simp only [sumQty_append] at hp ⊢
        by_cases hpid : pid = productId
        · subst hpid
          cases type with
          | tin =>
            have hsafe : safeInt (product.quantity + quantity) := by simpa using hx
            rw [findById_save_of_found s.products product pid _ hf] at hp
            simp only [Option.some.injEq, jsAdd_of_safe _ _ hsafe] at hp
            subst hp
            have := h product i hf hi
            simp; omega
          | tout =>
            have hsafe : safeInt (product.quantity - quantity) := by simpa using hx
            rw [findById_save_of_found s.products product pid _ hf] at hp
            simp only [Option.some.injEq, jsSub_of_safe _ _ hsafe] at hp
            subst hp
            have := h product i hf hi
            simp; omega
        · have hne : ¬ productId = pid := fun e => hpid e.symm
          have hp1 : findById s.products pid = some p := by
            cases type with
            | tin => rwa [findById_save_ne _ _ _ (by simpa [hid] using hpid)] at hp
            | tout => rwa [findById_save_ne _ _ _ (by simpa [hid] using hpid)] at hp
          have := h p i hp1 hi
          simp [hne]; omega
  | sale now userId items paymentMethod =>
    simp only [distinctProducts] at hd
    simp only [exactOp, List.all_eq_true] at hx
    have hex : ∀ it ∈ items, ∀ p, findById s.products it.productId = some p →
        safeInt (p.quantity - it.quantity) := by
      intro it hit p hp
      have := hx it hit
      simpa [hp] using this
    simp only [applyOp] at hs ⊢
    unfold createSale at hs ⊢
    by_cases h0 : items.length = 0
    · simp [h0] at hs
    · cases hv : validateItems s.products items with
      | error r => simpa [h0, hv] using h
      | ok l =>
        simp only [h0, if_false, hv]
        intro p i hp hi
        simp only at hp ⊢
        obtain ⟨e1, e2⟩ := createRecords_sumQty now userId (saleNotes paymentMethod)
          items s.transactions pid
        rw [e1, e2]
        rw [findById_deductStock items s.products s.products l hv hd
          (fun _ _ => rfl) hex pid] at hp
        cases hf : findById s.products pid with
        | none => simp [hf] at hp
        | some p0 =>
          simp only [hf, Option.map_some', Option.some.injEq] at hp
          subst hp
          have := h p0 i hf hi
          simp only at hi ⊢
          omega
  | reverse tid =>
    simp only [applyOp] at hs ⊢
    simp only [exactOp] at hx
    unfold deleteTransaction at hs ⊢
    cases ht : findTransaction s.transactions tid with
    | none => simp [ht] at hs
    | some tx =>
      simp only [ht]
      intro p i hp hi
      simp only [sumQty_delete _ _ tx _ _ ht] at hp ⊢
      cases hf : findById s.products tx.productId with
      | none =>
        simp only [hf] at hp
        have hne : ¬ tx.productId = pid := by
          intro e; rw [e, hp] at hf; cases hf
        have := h p i hp hi
        simp [hne]; omega
      | some product =>
        have hid : product.id = tx.productId := findById_id hf
        simp only [ht, hf] at hx
        simp only [hf] at hp
        by_cases hpid : pid = tx.productId
        · subst hpid
          cases hty : tx.type with
          | tin =>
            have hsafe : safeInt (product.quantity - tx.quantity) := by
              simpa [hty] using hx
            simp only [hty] at hp
            rw [findById_save_of_found s.products product tx.productId _ hf] at hp
            simp only [Option.some.injEq, jsSub_of_safe _ _ hsafe] at hp
            subst hp
            have := h product i hf hi
            simp; omega
          | tout =>
            have hsafe : safeInt (product.quantity + tx.quantity) := by
              simpa [hty] using hx
            simp only [hty] at hp
            rw [findById_save_of_found s.products product tx.productId _ hf] at hp
            simp only [Option.some.injEq, jsAdd_of_safe _ _ hsafe] at hp
            subst hp
            have := h product i hf hi
            simp; omega
        · have hne : ¬ tx.productId = pid := fun e => hpid e.symm
          have hp1 : findById s.products pid = some p := by
            cases hty : tx.type with
            | tin =>
              simp only [hty] at hp
              rwa [findById_save_ne _ _ _ (by simpa [hid] using hpid)] at hp
            | tout =>
              simp only [hty] at hp
              rwa [findById_save_ne _ _ _ (by simpa [hid] using hpid)] at hp
          have := h p i hp1 hi
          simp [hne]; omega

/-- Conservation is kept along every sequence of successful operations that
write safe integers and whose sales name each product at most once. -/
theorem conservation_runOps (ops : List Op) (s s1 : Store) (pid : Nat)
    (hd : ∀ op ∈ ops, distinctProducts op) (hx : exactRun s ops = true)
    (hr : runOps s ops = some s1)
    (h : Conserved s pid) : Conserved s1 pid := by
  induction ops generalizing s with
  | nil =>
    simp only [runOps, Option.some.injEq] at hr
    subst hr; exact h
  | cons op rest ih =>
    unfold runOps at hr
    simp only [exactRun, Bool.and_eq_true] at hx
    by_cases hs : (applyOp s op).2.success = true
    · simp only [hs, if_true] at hr
      exact ih _ (fun o ho => hd o (List.mem_cons_of_mem _ ho)) hx.2 hr
        (conservation_step s op pid (hd op (List.mem_cons_self _ _)) hx.1 hs h)
    · simp [hs] at hr

/-- Conservation along a restock of 5, a sale of 3 and the reversal of the
restock, from the store `shop`. -/
theorem conservation_runOps_witness :
    ∃ s1, runOps shop [Op.single 0 7 1 none TxType.tin 5 none,
        Op.sale 1 7 [⟨1, 3⟩] none, Op.reverse 1] = some s1 ∧ Conserved s1 1 :=
  ⟨_, rfl, conservation_runOps
    [Op.single 0 7 1 none TxType.tin 5 none, Op.sale 1 7 [⟨1, 3⟩] none, Op.reverse 1]
    shop _ 1
    (by
      intro op hop
      simp only [List.mem_cons, List.mem_singleton, List.not_mem_nil, or_false] at hop
      rcases hop with rfl | rfl | rfl <;> simp [distinctProducts])
    (by decide) rfl (by decide)⟩

/-- C1, the code at the failing input: the store `shop` satisfies the
conservation equation for product 1 (10 units, tracked from 10, empty ledger);
the sale of 3 and 4 units of product 1 in one items list succeeds, records two
'out' transactions with 7 units in total, and leaves the quantity at 6, so the
equation no longer holds. -/
theorem duplicate_sale_breaks_conservation :
    Conserved shop 1 ∧
    (createSale shop 0 7 [⟨1, 3⟩, ⟨1, 4⟩] none).2.success = true ∧
    runOps shop [Op.sale 0 7 [⟨1, 3⟩, ⟨1, 4⟩] none]
      = some (createSale shop 0 7 [⟨1, 3⟩, ⟨1, 4⟩] none).1 ∧
    (findById (createSale shop 0 7 [⟨1, 3⟩, ⟨1, 4⟩] none).1.products 1).map
      (fun p => p.quantity) = some 6 ∧
    sumQty (createSale shop 0 7 [⟨1, 3⟩, ⟨1, 4⟩] none).1.transactions 1 TxType.tout = 7 ∧
    ¬ Conserved (createSale shop 0 7 [⟨1, 3⟩, ⟨1, 4⟩] none).1 1 :=
  ⟨by decide, by decide, rfl, by decide, by decide, by decide⟩

/-! ## Inventory status -/

theorem sumQty_eq_zero_of_not_any (ts : List Transaction) (pid : Nat) (ty : TxType)
    (h : ts.any (fun t => decide (t.productId = pid)) = false) : sumQty ts pid ty = 0 := by
  unfold sumQty
  have : ts.filter (fun t => decide (t.productId = pid ∧ t.type = ty)) = [] := by
    rw [List.filter_eq_nil_iff]
    intro t ht
    have := (List.any_eq_false.mp h) t ht
    simp only [decide_eq_true_eq] at this ⊢
    exact fun hc => this hc.1
  rw [this]; rfl

theorem inQtyOf_eq (ts : List Transaction) (pid : Nat) :
    inQtyOf ts pid = sumQty ts pid TxType.tin := by
  unfold inQtyOf aggregateByProduct
  cases h : ts.any (fun t => decide (t.productId = pid)) with
  | true => simp [orZero_eq]
  | false => simp [sumQty_eq_zero_of_not_any ts pid _ h]

theorem outQtyOf_eq (ts : List Transaction) (pid : Nat) :
    outQtyOf ts pid = sumQty ts pid TxType.tout := by
  unfold outQtyOf aggregateByProduct
  cases h : ts.any (fun t => decide (t.productId = pid)) with
  | true => simp [orZero_eq]
  | false => simp [sumQty_eq_zero_of_not_any ts pid _ h]

theorem half_threshold (current initial : Int) :
    ((current : ℚ) ≤ (initial : ℚ) * (1 / 2)) ↔ 2 * current ≤ initial := by
  constructor
  · intro h
    have h2 : ((2 * current : Int) : ℚ) ≤ (initial : ℚ) := by
      push_cast; linarith
    exact_mod_cast h2
  · intro h
    have h2 : ((2 * current : Int) : ℚ) ≤ (initial : ℚ) := by exact_mod_cast h
    push_cast at h2; linarith

/-- C7: the status computed in `inventoryStatus` from the row's `stock` and
`initialStock` is OUT when current <= 0, else LOW when 2 * current <= initial
(current <= 0.5 * initial), else OK; (50, 100) is LOW, (51, 100) is OK and
(0, 100) is OUT. -/
theorem classifyStatus_spec (current initial : Int) (ts : List Transaction)
    (p : Product) :
    classifyStatus current initial =
      (if current ≤ 0 then Status.OUT
       else if 2 * current ≤ initial then Status.LOW
       else Status.OK) ∧
    (classifyStatus current initial = Status.LOW ↔
      0 < current ∧ (current : ℚ) ≤ (1 / 2) * (initial : ℚ)) ∧
    classifyStatus 50 100 = Status.LOW ∧
    classifyStatus 51 100 = Status.OK ∧
    classifyStatus 0 100 = Status.OUT ∧
    (inventoryRow ts p).status =
      classifyStatus (inventoryRow ts p).stock (inventoryRow ts p).initialStock := by
  have main : ∀ c i : Int, classifyStatus c i =
      (if c ≤ 0 then Status.OUT else if 2 * c ≤ i then Status.LOW else Status.OK) := by
    intro c i
    unfold classifyStatus
    simp only [orZero_eq, half_threshold]
  refine ⟨main _ _, ?_, ?_, ?_, ?_, rfl⟩
  · rw [main, mul_comm (1 / 2 : ℚ), half_threshold]
    by_cases h0 : current ≤ 0
    · simp only [h0, if_true]
      constructor
      · intro h; cases h
      · intro h; omega
    · by_cases h1 : 2 * current ≤ initial
      · simp only [h0, h1, if_true, if_false, true_iff]
        exact ⟨by omega, trivial⟩
      · simp only [h0, h1, if_false]
        constructor
        · intro h; cases h
        · intro h; exact absurd h.2 (by simp)
  · rw [main]; decide
  · rw [main]; decide
  · rw [main]; decide

/-- C9 fails as stated: with 2^53 + 2 units, no `initialStock` and one restock
of 1, the row's `initialStock` is 2^53 and not `quantity - inQty + outQty`,
which is 2^53 + 1; with an `initialStock` of 2^53 and the same restock, the
row's `stock` is 2^53 and not `initialStock + inQty - outQty`. -/
theorem inventoryRow_rounds_beyond_safe_range :
    (inventoryRow oneUnit bulkUntracked).initialStock = 9007199254740992 ∧
    bulkUntracked.quantity - sumQty oneUnit bulkUntracked.id TxType.tin
      + sumQty oneUnit bulkUntracked.id TxType.tout = 9007199254740993 ∧
    (inventoryRow oneUnit bulkTracked).stock = 9007199254740992 ∧
    9007199254740992 + sumQty oneUnit bulkTracked.id TxType.tin
      - sumQty oneUnit bulkTracked.id TxType.tout = 9007199254740993 :=
  ⟨by decide, by decide, by decide, by decide⟩

/-- C9 as amended: when the intermediate results of the derivation are safe
integers, in a row of `inventoryStatus` `initialStock` is the product's
`initialStock` when set and `quantity - inQty + outQty` otherwise; `stock` is
`initialStock + inQty - outQty` when the product's `initialStock` is set and
the product's `quantity` otherwise.  `inQty` and `outQty` are the sums over the
whole ledger. -/
theorem inventoryRow_stock (ts : List Transaction) (p : Product)
    (hx : exactRow ts p) :
    (inventoryRow ts p).initialStock =
      (match p.initialStock with
        | some i => i
        | none => p.quantity - sumQty ts p.id TxType.tin + sumQty ts p.id TxType.tout) ∧
    (inventoryRow ts p).stock =
      (match p.initialStock with
        | some i => i + sumQty ts p.id TxType.tin - sumQty ts p.id TxType.tout
        | none => p.quantity) := by
  unfold exactRow at hx
  unfold inventoryRow initialApprox
  simp only [inQtyOf_eq, outQtyOf_eq, orZero_eq]
  cases hI : p.initialStock with
  | some i =>
    simp only [hI] at hx
    simp only [Option.isSome_some, if_true, true_and]
    rw [jsAdd_of_safe _ _ hx.1, jsSub_of_safe _ _ hx.2]
  | none =>
    simp only [hI] at hx
    simp only [Option.isSome_none, Bool.false_eq_true, if_false, and_true]
    rw [jsSub_of_safe _ _ hx.1, jsSub_of_safe _ _ hx.2]
    omega

/-- C9 as amended, at product 1 after a restock of 10 and a sale of 5. -/
theorem inventoryRow_stock_witness :
    (inventoryRow shopAfterSale.transactions soapAfterSale).initialStock =
      (match soapAfterSale.initialStock with
        | some i => i
        | none => soapAfterSale.quantity
            - sumQty shopAfterSale.transactions soapAfterSale.id TxType.tin
            + sumQty shopAfterSale.transactions soapAfterSale.id TxType.tout) ∧
    (inventoryRow shopAfterSale.transactions soapAfterSale).stock =
      (match soapAfterSale.initialStock with
        | some i => i + sumQty shopAfterSale.transactions soapAfterSale.id TxType.tin
            - sumQty shopAfterSale.transactions soapAfterSale.id TxType.tout
        | none => soapAfterSale.quantity) :=
  inventoryRow_stock shopAfterSale.transactions soapAfterSale (by decide)

/-- C10 fails as stated: with 2^53 + 2 units, no `initialStock` and one
restock of 1, `stockReport` without dates gives `current` 2^53 where
`inventoryStatus` gives `stock` 2^53 + 2, and `initial + stockedIn - sold` is
2^53 + 1. -/
theorem stockReport_differs_beyond_safe_range :
    (stockReport bulkLedger 0 none none).map (fun r => r.current)
      = [9007199254740992] ∧
    (inventoryStatus (fun _ _ => false) bulkLedger none).map (fun r => r.stock)
      = [9007199254740994] ∧
    (stockReport bulkLedger 0 none none).map (fun r => r.initial + r.stockedIn - r.sold)
      = [9007199254740993] :=
  ⟨by decide, by decide, by decide⟩

/-- C10 as amended: when for every product the intermediate results of the
derivation are safe integers, `stockReport` without dates lists the same
products as `inventoryStatus` without search, row by row with `initial` equal
to `initialStock` and `current` equal to `stock`, and in every row
`current = initial + stockedIn - sold`. -/
theorem stockReport_agrees_inventoryStatus (regexMatch : String → String → Bool)
    (s : Store) (tz : Int) (hx : ∀ p ∈ s.products, exactStock s.transactions p) :
    (stockReport s tz none none).map (fun r => (r.id, r.initial, r.current)) =
      (inventoryStatus regexMatch s none).map
        (fun r => (r.id, r.initialStock, r.stock)) ∧
    (stockReport s tz none none).map (fun r => r.current) =
      (stockReport s tz none none).map (fun r => r.initial + r.stockedIn - r.sold) := by
  have key : ∀ p ∈ s.products,
      (stockRow s.transactions p).initial = (inventoryRow s.transactions p).initialStock ∧
      (stockRow s.transactions p).current = (inventoryRow s.transactions p).stock ∧
      (stockRow s.transactions p).current =
        (stockRow s.transactions p).initial + (stockRow s.transactions p).stockedIn
          - (stockRow s.transactions p).sold := by
    intro p hp
    have h := hx p hp
    unfold exactStock at h
    unfold stockRow inventoryRow initialApprox
    simp only [inQtyOf_eq, outQtyOf_eq, orZero_eq]
    cases hI : p.initialStock with
    | some i =>
      simp only [hI] at h
      simp only [Option.isSome_some, if_true, true_and]
      rw [jsAdd_of_safe _ _ h.1, jsSub_of_safe _ _ h.2]
    | none =>
      simp only [hI] at h
      obtain ⟨h1, h2, h3, h4⟩ := h
      simp only [Option.isSome_none, Bool.false_eq_true, if_false, true_and]
      rw [jsSub_of_safe _ _ h1, jsSub_of_safe _ _ h2]
      have e1 : p.quantity - (sumQty s.transactions p.id TxType.tin
          - sumQty s.transactions p.id TxType.tout) + sumQty s.transactions p.id TxType.tin
          = p.quantity + sumQty s.transactions p.id TxType.tout := by omega
      have e2 : p.quantity + sumQty s.transactions p.id TxType.tout
          - sumQty s.transactions p.id TxType.tout = p.quantity := by omega
      rw [jsAdd_of_safe _ _ (by rw [e1]; exact h3), e1,
        jsSub_of_safe _ _ (by rw [e2]; exact h4), e2]
      exact ⟨rfl, by omega⟩
  unfold stockReport inventoryStatus
  simp only [Option.isSome_none, Bool.false_eq_true, or_self, if_false, List.map_map]
  constructor
  · apply List.map_congr_left
    intro p hp
    obtain ⟨k1, k2, _⟩ := key p hp
    simp only [Function.comp, k1, k2]
    rfl
  · apply List.map_congr_left
    intro p hp
    exact (key p hp).2.2

/-- C10 as amended, at the store after a restock of 10 and a sale of 5. -/
theorem stockReport_agrees_inventoryStatus_witness :
    (stockReport shopAfterSale 0 none none).map (fun r => (r.id, r.initial, r.current)) =
      (inventoryStatus (fun _ _ => false) shopAfterSale none).map
        (fun r => (r.id, r.initialStock, r.stock)) ∧
    (stockReport shopAfterSale 0 none none).map (fun r => r.current) =
      (stockReport shopAfterSale 0 none none).map
        (fun r => r.initial + r.stockedIn - r.sold) :=
  stockReport_agrees_inventoryStatus (fun _ _ => false) shopAfterSale 0 (by decide)

/-! ## Daily and monthly sales -/

theorem mem_insertDay (d x : Int) (l : List Int) :
    x ∈ insertDay d l ↔ x = d ∨ x ∈ l := by
  induction l with
  | nil => simp [insertDay]
  | cons a l ih =>
    unfold insertDay
    by_cases h1 : d < a
    · simp [h1]
    · by_cases h2 : d = a
      · subst h2
        simp only [h1, if_false, if_true, List.mem_cons]
        constructor
        · exact fun h => Or.inr h
        · rintro (h | h)
          · exact Or.inl h
          · exact h
      · simp only [h1, h2, if_false, List.mem_cons, ih]
        constructor
        · rintro (h | h | h)
          · exact Or.inr (Or.inl h)
          · exact Or.inl h
          · exact Or.inr (Or.inr h)
        · rintro (h | h | h)
          · exact Or.inr (Or.inl h)
          · exact Or.inl h
          · exact Or.inr (Or.inr h)

theorem mem_dayKeys (ts : List Transaction) (d : Int) :
    d ∈ dayKeys ts ↔ ∃ t ∈ ts, utcDay t.date = d := by
  unfold dayKeys
  induction ts with
  | nil => simp
  | cons a ts ih =>
    simp only [List.map_cons, List.foldr_cons, mem_insertDay, ih, List.mem_cons,
      exists_eq_or_imp]
    constructor
    · rintro (h | h)
      · exact Or.inl h.symm
      · exact Or.inr h
    · rintro (h | h)
      · exact Or.inl h.symm
      · exact Or.inr h

theorem find_bucket_map (f : Int → DayBucket) (hf : ∀ k, (f k).day = k)
    (l : List Int) (d : Int) :
    (l.map f).find? (fun b => decide (b.day = d)) =
      if d ∈ l then some (f d) else none := by
  induction l with
  | nil => simp
  | cons a l ih =>
    simp only [List.map_cons, List.find?_cons, hf, List.mem_cons]
    by_cases h : a = d
    · subst h; simp
    · have h1 : ¬ d = a := fun e => h e.symm
      simp only [h, decide_False, ih, h1, false_or]

theorem utcDay_eq_iff (t d : Int) :
    utcDay t = d ↔ d * msPerDay ≤ t ∧ t < d * msPerDay + msPerDay := by
  unfold utcDay msPerDay
  omega

theorem setHoursStart_utc (d : Int) : setHoursStart 0 (parseDate d) = d * msPerDay := by
  unfold setHoursStart parseDate msPerDay
  omega

theorem matchOut_filter_day (ts : List Transaction) (start stop d : Int)
    (h1 : start ≤ d * msPerDay) (h2 : d * msPerDay + msPerDay ≤ stop) :
    (matchOut ts start stop).filter (fun t => decide (utcDay t.date = d)) =
      matchOut ts (d * msPerDay) (d * msPerDay + msPerDay) := by
  unfold matchOut
  rw [List.filter_filter]
  apply List.filter_congr
  intro t _
  rw [← Bool.decide_and, decide_eq_decide, utcDay_eq_iff]
  constructor
  · rintro ⟨⟨ha, hb⟩, hc, _, _⟩
    exact ⟨hc, ha, hb⟩
  · rintro ⟨hc, ha, hb⟩
    exact ⟨⟨ha, hb⟩, hc, by omega, by omega⟩

/-- On a server whose local time is UTC, for a day that lies in the window of
the month, the totals of `dailySales` are those of the day's bucket of
`monthlySales` (zero and zero when the month has no such bucket). -/
theorem daily_eq_month_bucket_utc (s : Store) (d m y : Int)
    (hm : 1 ≤ m ∧ m ≤ 12) (hy : y ≠ 0)
    (h1 : firstOfMonth 0 y (m - 1) ≤ parseDate d)
    (h2 : parseDate (d + 1) ≤ firstOfMonth 0 y m) :
    ∃ r1 r2, dailySales s 0 (some d) = some r1 ∧
      monthlySales s 0 (some m) (some y) = some r2 ∧
      (r1.totals.totalSales, r1.totals.transactions) = bucketOf r2.daily d := by
  have hcond : ¬ (m = 0 ∨ y = 0 ∨ m < 1 ∨ m > 12) := by
    rintro (h | h | h | h)
    · omega
    · exact hy h
    · omega
    · omega
  have h1a : firstOfMonth 0 y (m - 1) ≤ d * msPerDay := h1
  have h2a : d * msPerDay + msPerDay ≤ firstOfMonth 0 y m := by
    have : parseDate (d + 1) = d * msPerDay + msPerDay := by
      unfold parseDate; ring
    rw [← this]; exact h2
  have hM : monthlySales s 0 (some m) (some y) =
      some ⟨m, y,
        if (matchOut s.transactions (firstOfMonth 0 y (m - 1))
            (firstOfMonth 0 y m)).length = 0 then 0
        else salesOf s.products (matchOut s.transactions (firstOfMonth 0 y (m - 1))
            (firstOfMonth 0 y m)),
        (matchOut s.transactions (firstOfMonth 0 y (m - 1)) (firstOfMonth 0 y m)).length,
        dailyGroup s.products (matchOut s.transactions (firstOfMonth 0 y (m - 1))
            (firstOfMonth 0 y m))⟩ := by
    unfold monthlySales
    simp only [hcond, if_false]
  refine ⟨_, _, rfl, hM, ?_⟩
  · simp only [setHoursStart_utc]
    unfold bucketOf dailyGroup
    rw [find_bucket_map _ (fun _ => rfl)]
    have hday := matchOut_filter_day s.transactions _ _ d h1a h2a
    by_cases hk : d ∈ dayKeys
        (matchOut s.transactions (firstOfMonth 0 y (m - 1)) (firstOfMonth 0 y m))
    · simp only [hk, if_true, hday]
      by_cases hl : (matchOut s.transactions (d * msPerDay)
          (d * msPerDay + msPerDay)).length = 0
      · have hnil := List.length_eq_zero.mp hl
        simp [hl, hnil, salesOf]
      · simp only [hl, if_false]
    · have hnil : matchOut s.transactions (d * msPerDay) (d * msPerDay + msPerDay)
          = [] := by
        rw [← hday, List.filter_eq_nil_iff]
        intro t ht
        simp only [decide_eq_true_eq]
        intro e
        exact hk ((mem_dayKeys _ _).mpr ⟨t, ht, e⟩)
      simp [hk, hnil]

/-- The totals of `dailySales` for 2025-01-16 agree with the bucket of
January 2025 on a server in UTC, for the ledger of the night sale. -/
theorem daily_eq_month_bucket_utc_witness :
    ∃ r1 r2, dailySales nightShop 0 (some (daysFromCivil 2025 1 16)) = some r1 ∧
      monthlySales nightShop 0 (some 1) (some 2025) = some r2 ∧
      (r1.totals.totalSales, r1.totals.transactions)
        = bucketOf r2.daily (daysFromCivil 2025 1 16) :=
  daily_eq_month_bucket_utc nightShop (daysFromCivil 2025 1 16) 1 2025
    (by decide) (by decide) (by decide) (by decide)

/-- C8, the code at the failing input: on a server at UTC+8 the sale made on
2025-01-15 at 20:00 UTC is counted by `dailySales` for 2025-01-16 (75 in
sales, one transaction), while `monthlySales` for January 2025 has no bucket
for 2025-01-16 and puts the sale in the bucket of 2025-01-15. -/
theorem daily_differs_from_month_bucket :
    (dailySales nightShop utcPlus8 (some (daysFromCivil 2025 1 16))).map
      (fun r => (r.totals.totalSales, r.totals.transactions)) = some (75, 1) ∧
    (monthlySales nightShop utcPlus8 (some 1) (some 2025)).map
      (fun r => bucketOf r.daily (daysFromCivil 2025 1 16)) = some (0, 0) ∧
    (monthlySales nightShop utcPlus8 (some 1) (some 2025)).map
      (fun r => bucketOf r.daily (daysFromCivil 2025 1 15)) = some (75, 1) :=
  ⟨by decide!, by decide!, by decide!⟩

end IMSPOS
